import Mathlib

set_option maxRecDepth 100000

/-!
Verification of the chaotic entropy pipeline in `src/chaos.py`.

The development shallowly embeds the program: the collector's hashing loop
(`entropy_collector`), the orchestrator (`run_chaotic_system`), and the three
generator threads, over exact arithmetic (`Nat` for machine words with explicit
`% 2^32`, `ℚ` for the numeric recurrences).  SHA-256 (the `hashlib.sha256`
object used by the collector) is embedded in full so concrete digests can be
evaluated.
-/

/-! ## SHA-256 over byte lists (bytes are `Nat < 256`, words `Nat < 2^32`) -/

def w32 (x : Nat) : Nat := x % 4294967296

def rotr32 (n x : Nat) : Nat := w32 ((x >>> n) ||| (x <<< (32 - n)))

def bsig0 (x : Nat) : Nat := (rotr32 2 x) ^^^ (rotr32 13 x) ^^^ (rotr32 22 x)

def bsig1 (x : Nat) : Nat := (rotr32 6 x) ^^^ (rotr32 11 x) ^^^ (rotr32 25 x)

def ssig0 (x : Nat) : Nat := (rotr32 7 x) ^^^ (rotr32 18 x) ^^^ (x >>> 3)

def ssig1 (x : Nat) : Nat := (rotr32 17 x) ^^^ (rotr32 19 x) ^^^ (x >>> 10)

def chf (x y z : Nat) : Nat := (x &&& y) ^^^ ((x ^^^ 4294967295) &&& z)

def majf (x y z : Nat) : Nat := (x &&& y) ^^^ (x &&& z) ^^^ (y &&& z)

def sha256K : List Nat :=
  [1116352408, 1899447441, 3049323471, 3921009573, 961987163,
   1508970993, 2453635748, 2870763221, 3624381080, 310598401,
   607225278, 1426881987, 1925078388, 2162078206, 2614888103,
   3248222580, 3835390401, 4022224774, 264347078, 604807628,
   770255983, 1249150122, 1555081692, 1996064986, 2554220882,
   2821834349, 2952996808, 3210313671, 3336571891, 3584528711,
   113926993, 338241895, 666307205, 773529912, 1294757372,
   1396182291, 1695183700, 1986661051, 2177026350, 2456956037,
   2730485921, 2820302411, 3259730800, 3345764771, 3516065817,
   3600352804, 4094571909, 275423344, 430227734, 506948616,
   659060556, 883997877, 958139571, 1322822218, 1537002063,
   1747873779, 1955562222, 2024104815, 2227730452, 2361852424,
   2428436474, 2756734187, 3204031479, 3329325298]

structure Hash8 where
  a : Nat
  b : Nat
  c : Nat
  d : Nat
  e : Nat
  f : Nat
  g : Nat
  h : Nat
deriving DecidableEq, Repr

def sha256H0 : Hash8 :=
  ⟨1779033703, 3144134277, 1013904242, 2773480762,
   1359893119, 2600822924, 528734635, 1541459225⟩

def lenBytes (len : Nat) : List Nat :=
  let L := len * 8
  [(L >>> 56) % 256, (L >>> 48) % 256, (L >>> 40) % 256, (L >>> 32) % 256,
   (L >>> 24) % 256, (L >>> 16) % 256, (L >>> 8) % 256, L % 256]

def padBytes (msg : List Nat) : List Nat :=
  let len := msg.length
  let zeros := (64 + 56 - ((len + 1) % 64)) % 64
  msg ++ [128] ++ List.replicate zeros 0 ++ lenBytes len

def bytesToWords : List Nat → List Nat
  | a :: b :: c :: d :: rest =>
      (a * 16777216 + b * 65536 + c * 256 + d) :: bytesToWords rest
  | _ => []

def toBlocks : List Nat → List (List Nat)
  | w0 :: w1 :: w2 :: w3 :: w4 :: w5 :: w6 :: w7 ::
    w8 :: w9 :: w10 :: w11 :: w12 :: w13 :: w14 :: w15 :: rest =>
      [w0, w1, w2, w3, w4, w5, w6, w7, w8, w9, w10, w11, w12, w13, w14, w15] ::
        toBlocks rest
  | _ => []

def scheduleStep (w : List Nat) : List Nat :=
  let n := w.length
  w ++ [w32 (ssig1 (w.getD (n - 2) 0) + w.getD (n - 7) 0 +
             ssig0 (w.getD (n - 15) 0) + w.getD (n - 16) 0)]

def extendSchedule : Nat → List Nat → List Nat
  | 0, w => w
  | k + 1, w => extendSchedule k (scheduleStep w)

def schedule (block : List Nat) : List Nat := extendSchedule 48 block

def compressStep (W K : Nat) (s : Hash8) : Hash8 :=
  let t1 := w32 (s.h + bsig1 s.e + chf s.e s.f s.g + K + W)
  let t2 := w32 (bsig0 s.a + majf s.a s.b s.c)
  ⟨w32 (t1 + t2), s.a, s.b, s.c, w32 (s.d + t1), s.e, s.f, s.g⟩

def compressBlock (st : Hash8) (block : List Nat) : Hash8 :=
  let ws := schedule block
  let s := (List.zip ws sha256K).foldl (fun acc p => compressStep p.1 p.2 acc) st
  ⟨w32 (st.a + s.a), w32 (st.b + s.b), w32 (st.c + s.c), w32 (st.d + s.d),
   w32 (st.e + s.e), w32 (st.f + s.f), w32 (st.g + s.g), w32 (st.h + s.h)⟩

def sha256 (msg : List Nat) : Hash8 :=
  (toBlocks (bytesToWords (padBytes msg))).foldl compressBlock sha256H0

def wordBytes (w : Nat) : List Nat :=
  [(w >>> 24) % 256, (w >>> 16) % 256, (w >>> 8) % 256, w % 256]

def hashBytes (s : Hash8) : List Nat :=
  wordBytes s.a ++ wordBytes s.b ++ wordBytes s.c ++ wordBytes s.d ++
  wordBytes s.e ++ wordBytes s.f ++ wordBytes s.g ++ wordBytes s.h

def hexChar (n : Nat) : Char :=
  if n < 10 then Char.ofNat (48 + n) else Char.ofNat (87 + n)

def byteHex (b : Nat) : List Char := [hexChar (b / 16), hexChar (b % 16)]

def bytesHex (bs : List Nat) : String := ⟨(bs.map byteHex).flatten⟩

def sha256Hex (msg : List Nat) : String := bytesHex (hashBytes (sha256 msg))

/-! UTF-8 encoding of a string, as Python's `str.encode` produces it. -/

def utf8Char (c : Char) : List Nat :=
  let n := c.toNat
  if n < 128 then [n]
  else if n < 2048 then [192 + n / 64, 128 + n % 64]
  else if n < 65536 then [224 + n / 4096, 128 + (n / 64) % 64, 128 + n % 64]
  else [240 + n / 262144, 128 + (n / 4096) % 64, 128 + (n / 64) % 64, 128 + n % 64]

def utf8Encode (s : String) : List Nat := (s.data.map utf8Char).flatten

/-! ## The Collector (`entropy_collector`, src/chaos.py lines 94-112)

The loop `while time.time() < end_time or not queue.empty(): try: data_chunk =
queue.get(timeout=0.1); hasher.update(data_chunk.encode('utf-8')); except: pass`
is embedded over a trace of pop events.  Each `PopEvent` records the wall-clock
reading at the loop-condition check, whether `queue.empty()` held there, and
the outcome of `queue.get(timeout=0.1)` (`none` = timeout).  Time is in
abstract monotone ticks.  The `hashlib.sha256` object is modelled by its
documented semantics: `update` appends bytes to the hashed stream and
`hexdigest` is SHA-256 of the accumulated stream. -/

structure PopEvent where
  now : Nat
  queueEmpty : Bool
  result : Option String
deriving DecidableEq, Repr

def popCondition (endTime : Nat) (e : PopEvent) : Bool :=
  decide (e.now < endTime) || !e.queueEmpty

def collectorRun (endTime : Nat) (acc : List Nat) : List PopEvent → List Nat
  | [] => acc
  | e :: tr =>
    if popCondition endTime e then
      match e.result with
      | some s => collectorRun endTime (acc ++ utf8Encode s) tr
      | none => collectorRun endTime acc tr
    else acc

def processedEvents (endTime : Nat) : List PopEvent → List PopEvent
  | [] => []
  | e :: tr =>
    if popCondition endTime e then e :: processedEvents endTime tr else []

def processedItems (endTime : Nat) (tr : List PopEvent) : List String :=
  (processedEvents endTime tr).filterMap (fun e => e.result)

def collectorDigest (startTime runTime : Nat) (tr : List PopEvent) : String :=
  sha256Hex (collectorRun (startTime + runTime) [] tr)

def entropy_collector (startTime runTime : Nat) (tr : List PopEvent)
    (final_result : List String) : List String :=
  final_result ++ [collectorDigest startTime runTime tr]

/-- The collector's hashing step fed directly with an ordered list of sample
strings: fold `update` (byte-append) over the chunks, then `hexdigest`. -/
def hashChunks (chunks : List String) : String :=
  sha256Hex (chunks.foldl (fun st c => st ++ utf8Encode c) [])

/-- Number of pops the collector performs at or after the deadline. -/
def drainCount (endTime : Nat) (tr : List PopEvent) : Nat :=
  ((processedEvents endTime tr).filter (fun e => decide (endTime ≤ e.now))).length

/-- A physically realisable trace: wall-clock readings never decrease, and a
pop attempted while the queue is non-empty succeeds. -/
def Realistic (tr : List PopEvent) : Prop :=
  tr.Pairwise (fun a b => a.now ≤ b.now) ∧
    ∀ e ∈ tr, e.queueEmpty = false → e.result.isSome

/-- Claim C2 as stated: some fixed bound `B` caps the number of post-deadline
pops of the collector loop, over all realisable traces. -/
def boundedDrainClaim : Prop :=
  ∃ B : Nat, ∀ endTime : Nat, ∀ tr : List PopEvent,
    Realistic tr → drainCount endTime tr ≤ B

/-! ## The Orchestrator (`run_chaotic_system`, src/chaos.py lines 117-148) -/

inductive WorkerKind
  | logisticMap
  | lorenzSystem
  | randomWalk
  | collector
deriving DecidableEq, Repr

structure ThreadSpec where
  kind : WorkerKind
  entropyPool : Option Unit
  steps : Option Nat
  runTime : Option Nat
deriving DecidableEq, Repr

structure Orchestration where
  channels : Nat
  workers : List ThreadSpec
  joined : List WorkerKind
deriving DecidableEq, Repr

/-- Static structure of `run_chaotic_system`: one `Queue()`, threads `t1`,
`t2`, `t3` with arguments `(None, queue, 10_000)`, the collector thread with
`run_time = total_time`, and the single `collector_thread.join()`. -/
def run_chaotic_system_plan (totalTime : Nat) : Orchestration :=
  { channels := 1
    workers :=
      [⟨.logisticMap, none, some 10000, none⟩,
       ⟨.lorenzSystem, none, some 10000, none⟩,
       ⟨.randomWalk, none, some 10000, none⟩,
       ⟨.collector, none, none, some totalTime⟩]
    joined := [.collector] }

/-- Dynamic result of `run_chaotic_system`: `final_result` starts empty, the
collector appends its digest, and `final_result[0] if final_result else None`
is returned. -/
def run_chaotic_system (totalTime startTime : Nat) (tr : List PopEvent) :
    Option String :=
  (entropy_collector startTime totalTime tr []).head?

/-! ## The Generators (src/chaos.py lines 12-89)

Numeric state is embedded over `ℚ`; `random.uniform(a, b)` is `a + (b-a)*u`
with `u` the value of `random.random()` in `[0,1)`, which each model takes as
an input.  Per-step timestamps (`time.perf_counter_ns()`) are an input stream
`ts`.  Each generator's enqueued sequence is modelled at the level of the
numeric tuples the `mix_data` f-string is formatted from; the unused
`entropy_pool` parameter is kept to decide claim C10. -/

def uniform (a b u : ℚ) : ℚ := a + (b - a) * u

/-- Modelled from the spec and the function's own docstring: line 23 of
src/chaos.py reads `x = r * x * (1 - x)git `, which is a Python SyntaxError,
so the logistic update cannot be taken from the source text; the docstring
states `X_{n+1} = r * X_n * (1 - X_n)`. -/
def logisticStep (r x : ℚ) : ℚ := r * x * (1 - x)

def logisticIter (r x0 : ℚ) : Nat → ℚ
  | 0 => x0
  | n + 1 => logisticStep r (logisticIter r x0 n)

/-- `logistic_map_thread`: `r = random.uniform(3.7, 4.0)`, `x = random.random()`,
then each step updates `x` and enqueues `(r, x, timestamp)`. -/
def logistic_map_emits (entropy_pool : Option Unit) (u x0 : ℚ) (ts : Nat → Nat)
    (steps : Nat) : List (ℚ × ℚ × Nat) :=
  (List.range steps).map (fun n =>
    (uniform (37/10) 4 u, logisticIter (uniform (37/10) 4 u) x0 (n + 1), ts n))

def lorenzStep (sigma rho beta : ℚ) (p : ℚ × ℚ × ℚ) : ℚ × ℚ × ℚ :=
  let x := p.1
  let y := p.2.1
  let z := p.2.2
  let dt : ℚ := 1/100
  let dx := sigma * (y - x) * dt
  let dy := (x * (rho - z) - y) * dt
  let dz := (x * y - beta * z) * dt
  (x + dx, y + dy, z + dz)

def lorenzIter (sigma rho beta : ℚ) (p0 : ℚ × ℚ × ℚ) : Nat → ℚ × ℚ × ℚ
  | 0 => p0
  | n + 1 => lorenzStep sigma rho beta (lorenzIter sigma rho beta p0 n)

/-- `lorenz_system_thread`: `sigma = uniform(9,11)`, `rho = uniform(27,29)`,
`beta = uniform(2.5,3.0)`, random initial `(x,y,z)`, then each step does the
Euler update and enqueues `(sigma, rho, beta, x, y, z, timestamp)`. -/
def lorenz_emits (entropy_pool : Option Unit) (u1 u2 u3 : ℚ) (p0 : ℚ × ℚ × ℚ)
    (ts : Nat → Nat) (steps : Nat) :
    List ((ℚ × ℚ × ℚ) × (ℚ × ℚ × ℚ) × Nat) :=
  (List.range steps).map (fun n =>
    ((uniform 9 11 u1, uniform 27 29 u2, uniform (5/2) 3 u3),
     lorenzIter (uniform 9 11 u1) (uniform 27 29 u2) (uniform (5/2) 3 u3) p0 (n + 1),
     ts n))

/-- `int.from_bytes(bs, byteorder='big', signed=False)`. -/
def int_from_bytes_be (bs : List Nat) : Nat :=
  bs.foldl (fun acc b => acc * 256 + b) 0

/-- `shift = (sys_random_value % 100) - 50`. -/
def shiftOf (v : Nat) : Int := (v % 100 : Int) - 50

/-- `position += shift * 0.001`. -/
def random_walk_step (position : ℚ) (v : Nat) : ℚ :=
  position + (shiftOf v : ℚ) * (1/1000)

def walkPos (vs : Nat → Nat) : Nat → ℚ
  | 0 => 0
  | n + 1 => random_walk_step (walkPos vs n) (vs n)

/-- `random_walk_thread`: `position = 0.0`, each step reads `os.urandom(8)` as
`vs n`, updates the position and enqueues `(position, sys_random_value,
timestamp)`. -/
def random_walk_emits (entropy_pool : Option Unit) (vs : Nat → Nat)
    (ts : Nat → Nat) (steps : Nat) : List (ℚ × Nat × Nat) :=
  (List.range steps).map (fun n => (walkPos vs (n + 1), vs n, ts n))

/-- The concrete trace of spec §8's three-sample scenario: pops return `"a"`,
`"b"`, `"c"` before the deadline (5 ticks), then a post-deadline check finds
the queue empty. -/
def abcTrace : List PopEvent :=
  [⟨0, false, some "a"⟩, ⟨1, false, some "b"⟩, ⟨2, false, some "c"⟩,
   ⟨5, true, none⟩]

/-! ## Helper lemmas -/

theorem collectorRun_eq (endTime : Nat) :
    ∀ (tr : List PopEvent) (acc : List Nat),
      collectorRun endTime acc tr
        = acc ++ ((processedItems endTime tr).map utf8Encode).flatten := by
  intro tr
  induction tr with
  | nil => intro acc; simp [collectorRun, processedItems, processedEvents]
  | cons e tr ih =>
    intro acc
    by_cases h : popCondition endTime e
    · rcases hr : e.result with _ | s
      · simp [collectorRun, processedItems, processedEvents, h, hr, ih]
      · simp [collectorRun, processedItems, processedEvents, h, hr, ih]
    · simp [collectorRun, processedItems, processedEvents, h]

theorem hashChunks_eq_aux :
    ∀ (chunks : List String) (acc : List Nat),
      chunks.foldl (fun st c => st ++ utf8Encode c) acc
        = acc ++ (chunks.map utf8Encode).flatten := by
  intro chunks
  induction chunks with
  | nil => intro acc; simp
  | cons c chunks ih => intro acc; simp [ih]

theorem hashChunks_eq (chunks : List String) :
    hashChunks chunks = sha256Hex ((chunks.map utf8Encode).flatten) := by
  simp [hashChunks, hashChunks_eq_aux]

theorem processedEvents_all (endTime : Nat) :
    ∀ tr : List PopEvent, (∀ e ∈ tr, popCondition endTime e = true) →
      processedEvents endTime tr = tr := by
  intro tr
  induction tr with
  | nil => intro _; rfl
  | cons e tr ih =>
    intro h
    have he := h e (by simp)
    simp [processedEvents, he]
    exact ih (fun e' he' => h e' (by simp [he']))

theorem processedEvents_length_le (endTime : Nat) :
    ∀ tr : List PopEvent,
      (processedEvents endTime tr).length ≤ tr.length := by
  intro tr
  induction tr with
  | nil => simp [processedEvents]
  | cons e tr ih =>
    by_cases h : popCondition endTime e
    · simpa [processedEvents, h] using ih
    · simp [processedEvents, h]

theorem wordBytes_lt (w : Nat) : ∀ b ∈ wordBytes w, b < 256 := by
  intro b hb
  simp [wordBytes] at hb
  rcases hb with rfl | rfl | rfl | rfl <;> exact Nat.mod_lt _ (by norm_num)

theorem hashBytes_lt (s : Hash8) : ∀ b ∈ hashBytes s, b < 256 := by
  intro b hb
  simp only [hashBytes, List.mem_append] at hb
  rcases hb with ((((((h | h) | h) | h) | h) | h) | h) | h <;>
    exact wordBytes_lt _ _ h

theorem hexChar_mem (n : Nat) (h : n < 16) :
    hexChar n ∈ ("0123456789abcdef").data := by
  interval_cases n <;> decide

theorem bytesHex_length :
    ∀ bs : List Nat, ((bs.map byteHex).flatten).length = 2 * bs.length := by
  intro bs
  induction bs with
  | nil => simp
  | cons b bs ih => simp [byteHex, ih]; omega

theorem sha256Hex_length (msg : List Nat) : (sha256Hex msg).length = 64 := by
  show ((((hashBytes (sha256 msg))).map byteHex).flatten).length = 64
  rw [bytesHex_length]
  simp [hashBytes, wordBytes]

theorem sha256Hex_chars (msg : List Nat) :
    ∀ c ∈ (sha256Hex msg).data, c ∈ ("0123456789abcdef").data := by
  intro c hc
  have hc' : c ∈ ((hashBytes (sha256 msg)).map byteHex).flatten := hc
  rw [List.mem_flatten] at hc'
  obtain ⟨l, hl, hcl⟩ := hc'
  rw [List.mem_map] at hl
  obtain ⟨b, hb, rfl⟩ := hl
  have hb256 : b < 256 := hashBytes_lt _ b hb
  simp only [byteHex, List.mem_cons, List.not_mem_nil, or_false] at hcl
  rcases hcl with rfl | rfl
  · exact hexChar_mem _ (by omega)
  · exact hexChar_mem _ (Nat.mod_lt _ (by norm_num))

theorem uniform_mem (a b u : ℚ) (hab : a < b) (h0 : 0 ≤ u) (h1 : u < 1) :
    a ≤ uniform a b u ∧ uniform a b u < b := by
  unfold uniform
  constructor
  · nlinarith
  · nlinarith

/-! ## Claim theorems -/

/-- C1: for every finite ordered sequence of samples consumed by the collector,
the returned digest is the SHA-256 hash of the concatenation of each sample's
UTF-8 bytes in dequeue order; in particular the trace feeding payloads `"a"`,
`"b"`, `"c"` in order yields the SHA-256 hash of `"abc"`. -/
theorem C1_digest_is_hash_of_concatenation :
    (∀ startTime runTime : Nat, ∀ tr : List PopEvent,
      collectorDigest startTime runTime tr
        = sha256Hex (((processedItems (startTime + runTime) tr).map utf8Encode).flatten)) ∧
    processedItems 5 abcTrace = ["a", "b", "c"] ∧
    collectorDigest 0 5 abcTrace = sha256Hex (utf8Encode "abc") ∧
    sha256Hex (utf8Encode "abc")
      = "ba7816bf8f01cfea414140de5dae2223b00361a396177a9cb410ff61f20015ad" := by
  refine ⟨?_, by decide, by decide, by decide⟩
  intro startTime runTime tr
  simp [collectorDigest, collectorRun_eq]

/-- C2 (counterexample): no fixed bound `B` caps the number of pops the
collector performs at or after the deadline — for any candidate bound the
realisable trace with `B + 1` post-deadline non-empty-queue pops exceeds it. -/
theorem C2_counterexample_unbounded_drain : ¬ boundedDrainClaim := by
  rintro ⟨B, hB⟩
  set e : PopEvent := ⟨0, false, some "a"⟩ with he
  have hreal : Realistic (List.replicate (B + 1) e) := by
    constructor
    · rw [List.pairwise_replicate]
      right
      exact le_refl _
    · intro e' he'
      rw [List.eq_of_mem_replicate he']
      intro _
      rfl
  have h := hB 0 (List.replicate (B + 1) e) hreal
  have hall : ∀ e' ∈ List.replicate (B + 1) e, popCondition 0 e' = true := by
    intro e' he'
    rw [List.eq_of_mem_replicate he']
    rfl
  rw [drainCount, processedEvents_all 0 _ hall] at h
  rw [List.filter_eq_self.mpr ?_] at h
  · rw [List.length_replicate] at h
    omega
  · intro e' he'
    rw [List.eq_of_mem_replicate he']
    rfl

/-- C2 (amended): the collector's loop runs exactly while the deadline has not
passed or the queue was observed non-empty — the processed pops are the longest
such prefix of the pop trace — so the post-deadline drain is bounded by the
samples the generators actually make available, not by a fixed constant. -/
theorem C2_amended_drain_while_nonempty :
    ∀ endTime : Nat, ∀ tr : List PopEvent,
      processedEvents endTime tr = tr.takeWhile (popCondition endTime) ∧
      drainCount endTime tr ≤ tr.length := by
  intro endTime tr
  constructor
  · induction tr with
    | nil => rfl
    | cons e tr ih =>
      rw [List.takeWhile_cons]
      by_cases h : popCondition endTime e
      · simp [processedEvents, h, ih]
      · simp [processedEvents, h]
  · calc ((processedEvents endTime tr).filter _).length
        ≤ (processedEvents endTime tr).length := List.length_filter_le _ _
      _ ≤ tr.length := processedEvents_length_le endTime tr

/-- C4: with `total_time = 0` and no sample ever available, the collector
yields the SHA-256 digest of the empty byte sequence and `run_chaotic_system`
returns exactly that string, never `None`. -/
theorem C4_zero_duration_empty_digest :
    ∀ startTime : Nat, ∀ tr : List PopEvent,
      (∀ e ∈ tr, startTime ≤ e.now ∧ e.queueEmpty = true) →
      collectorDigest startTime 0 tr
          = "e3b0c44298fc1c149afbf4c8996fb92427ae41e4649b934ca495991b7852b855" ∧
      run_chaotic_system 0 startTime tr
          = some "e3b0c44298fc1c149afbf4c8996fb92427ae41e4649b934ca495991b7852b855" ∧
      run_chaotic_system 0 startTime tr ≠ none := by
  intro startTime tr h
  have hrun : collectorRun (startTime + 0) [] tr = [] := by
    cases tr with
    | nil => rfl
    | cons e tr =>
      have he := h e (by simp)
      have h1 : startTime ≤ e.now := he.1
      have hcond : popCondition startTime e = false := by
        simp [popCondition, he.2]
        omega
      simp [collectorRun, hcond]
  have hd : collectorDigest startTime 0 tr
      = "e3b0c44298fc1c149afbf4c8996fb92427ae41e4649b934ca495991b7852b855" := by
    unfold collectorDigest
    rw [hrun]
    decide
  refine ⟨hd, ?_, ?_⟩
  · simp [run_chaotic_system, entropy_collector, hd]
  · simp [run_chaotic_system, entropy_collector]

/-- C4 witness: the empty trace with zero duration. -/
theorem C4_zero_duration_empty_digest_witness :
    collectorDigest 0 0 []
        = "e3b0c44298fc1c149afbf4c8996fb92427ae41e4649b934ca495991b7852b855" ∧
    run_chaotic_system 0 0 []
        = some "e3b0c44298fc1c149afbf4c8996fb92427ae41e4649b934ca495991b7852b855" ∧
    run_chaotic_system 0 0 [] ≠ none :=
  C4_zero_duration_empty_digest 0 [] (by simp)

/-- C5: the collector's digest is the pure hashing fold of the ordered chunk
sequence it processed, and re-running the fold on an identical ordered chunk
sequence reproduces the identical digest. -/
theorem C5_digest_deterministic :
    (∀ startTime runTime : Nat, ∀ tr : List PopEvent,
      collectorDigest startTime runTime tr
        = hashChunks (processedItems (startTime + runTime) tr)) ∧
    ∀ chunks1 chunks2 : List String, chunks1 = chunks2 →
      hashChunks chunks1 = hashChunks chunks2 := by
  constructor
  · intro startTime runTime tr
    rw [hashChunks_eq]
    simp [collectorDigest, collectorRun_eq]
  · intro chunks1 chunks2 h
    rw [h]

/-- C5 witness: the fixed three-chunk sequence of the spec scenario. -/
theorem C5_digest_deterministic_witness :
    hashChunks ["a", "b", "c"] = hashChunks ["a", "b", "c"] :=
  C5_digest_deterministic.2 ["a", "b", "c"] ["a", "b", "c"] rfl

theorem foldl_bytes_lt :
    ∀ (bs : List Nat) (acc : Nat), (∀ b ∈ bs, b < 256) →
      bs.foldl (fun acc b => acc * 256 + b) acc < (acc + 1) * 256 ^ bs.length := by
  intro bs
  induction bs with
  | nil => intro acc _; simp
  | cons b bs ih =>
    intro acc h
    have hb : b < 256 := h b (by simp)
    have h1 := ih (acc * 256 + b) (fun x hx => h x (by simp [hx]))
    have h2 : acc * 256 + b + 1 ≤ (acc + 1) * 256 := by omega
    calc List.foldl (fun acc b => acc * 256 + b) (acc * 256 + b) bs
        < (acc * 256 + b + 1) * 256 ^ bs.length := h1
      _ ≤ ((acc + 1) * 256) * 256 ^ bs.length :=
          Nat.mul_le_mul_right _ h2
      _ = (acc + 1) * 256 ^ (b :: bs).length := by
          rw [List.length_cons, pow_succ]
          ring

/-- C3: the logistic-map generator draws `r` once from `[3.7, 4.0)` and `x0`
from `(0,1)`, keeps `r` fixed, and advances `x ← r·x·(1−x)` before each emission.
Proved of the intended recurrence modelled from the docstring, since line 23 of
the source is a SyntaxError (`x = r * x * (1 - x)git`). -/
theorem C3_logistic_intended_recurrence :
    ∀ (pool : Option Unit) (u x0 : ℚ) (ts : Nat → Nat) (steps n : Nat),
      0 ≤ u → u < 1 → n < steps →
      (37/10 ≤ uniform (37/10) 4 u ∧ uniform (37/10) 4 u < 4) ∧
      (logistic_map_emits pool u x0 ts steps)[n]?
        = some (uniform (37/10) 4 u,
                logisticStep (uniform (37/10) 4 u)
                  (logisticIter (uniform (37/10) 4 u) x0 n),
                ts n) ∧
      ∀ i : Nat, i < steps →
        ((logistic_map_emits pool u x0 ts steps)[i]?.map (fun t => t.1))
          = some (uniform (37/10) 4 u) := by
  intro pool u x0 ts steps n hu0 hu1 hn
  refine ⟨uniform_mem _ _ _ (by norm_num) hu0 hu1, ?_, ?_⟩
  · simp [logistic_map_emits, List.getElem?_map, List.getElem?_range hn,
      logisticIter]
  · intro i hi
    simp [logistic_map_emits, List.getElem?_map, List.getElem?_range hi]

/-- C3 witness: one step with `u = 0`, `x0 = 1/2`. -/
theorem C3_logistic_intended_recurrence_witness :
    ((37/10 : ℚ) ≤ uniform (37/10) 4 0 ∧ uniform (37/10) 4 0 < 4) ∧
    (logistic_map_emits none 0 (1/2) (fun _ => 0) 1)[0]?
      = some (uniform (37/10) 4 0,
              logisticStep (uniform (37/10) 4 0)
                (logisticIter (uniform (37/10) 4 0) (1/2) 0),
              0) ∧
    (∀ i : Nat, i < 1 →
      ((logistic_map_emits none 0 (1/2) (fun _ => 0) 1)[i]?.map (fun t => t.1))
        = some (uniform (37/10) 4 0)) :=
  C3_logistic_intended_recurrence none 0 (1/2) (fun _ => 0) 1 0
    (by norm_num) (by norm_num) (by norm_num)

/-- C6: `run_chaotic_system` creates one channel, starts exactly three
generator threads each bounded at 10,000 steps, starts one collector bound to
`total_time`, joins only the collector, and returns the collector's digest. -/
theorem C6_orchestration_structure :
    ∀ totalTime startTime : Nat, ∀ tr : List PopEvent,
      (run_chaotic_system_plan totalTime).channels = 1 ∧
      ((run_chaotic_system_plan totalTime).workers.filter
          (fun w => decide (w.kind ≠ WorkerKind.collector))).length = 3 ∧
      (∀ w ∈ (run_chaotic_system_plan totalTime).workers,
        w.kind ≠ WorkerKind.collector → w.steps = some 10000) ∧
      (∀ w ∈ (run_chaotic_system_plan totalTime).workers,
        w.kind = WorkerKind.collector → w.runTime = some totalTime) ∧
      (run_chaotic_system_plan totalTime).joined = [WorkerKind.collector] ∧
      run_chaotic_system totalTime startTime tr
        = some (collectorDigest startTime totalTime tr) := by
  intro totalTime startTime tr
  refine ⟨rfl, rfl, ?_, ?_, rfl, rfl⟩
  · intro w hw
    simp [run_chaotic_system_plan] at hw
    rcases hw with rfl | rfl | rfl | rfl <;> simp
  · intro w hw
    simp [run_chaotic_system_plan] at hw
    rcases hw with rfl | rfl | rfl | rfl <;> simp

/-- C7: the Lorenz generator is explicit forward Euler with `dt = 1/100`: all
of `dx`, `dy`, `dz` come from the pre-update state, parameters are drawn from
`[9,11) × [27,29) × [2.5,3)` once and stay fixed across every emission. -/
theorem C7_lorenz_forward_euler :
    ∀ (pool : Option Unit) (u1 u2 u3 : ℚ) (p0 : ℚ × ℚ × ℚ) (ts : Nat → Nat)
      (steps n : Nat),
      0 ≤ u1 → u1 < 1 → 0 ≤ u2 → u2 < 1 → 0 ≤ u3 → u3 < 1 → n < steps →
      (9 ≤ uniform 9 11 u1 ∧ uniform 9 11 u1 < 11) ∧
      (27 ≤ uniform 27 29 u2 ∧ uniform 27 29 u2 < 29) ∧
      (5/2 ≤ uniform (5/2) 3 u3 ∧ uniform (5/2) 3 u3 < 3) ∧
      (∀ sigma rho beta : ℚ, ∀ s : ℚ × ℚ × ℚ,
        lorenzStep sigma rho beta s
          = (s.1 + sigma * (s.2.1 - s.1) * (1/100),
             s.2.1 + (s.1 * (rho - s.2.2) - s.2.1) * (1/100),
             s.2.2 + (s.1 * s.2.1 - beta * s.2.2) * (1/100))) ∧
      (lorenz_emits pool u1 u2 u3 p0 ts steps)[n]?
        = some ((uniform 9 11 u1, uniform 27 29 u2, uniform (5/2) 3 u3),
                lorenzStep (uniform 9 11 u1) (uniform 27 29 u2)
                  (uniform (5/2) 3 u3)
                  (lorenzIter (uniform 9 11 u1) (uniform 27 29 u2)
                    (uniform (5/2) 3 u3) p0 n),
                ts n) ∧
      ∀ i : Nat, i < steps →
        ((lorenz_emits pool u1 u2 u3 p0 ts steps)[i]?.map (fun t => t.1))
          = some (uniform 9 11 u1, uniform 27 29 u2, uniform (5/2) 3 u3) := by
  intro pool u1 u2 u3 p0 ts steps n h10 h11 h20 h21 h30 h31 hn
  refine ⟨uniform_mem _ _ _ (by norm_num) h10 h11,
          uniform_mem _ _ _ (by norm_num) h20 h21,
          uniform_mem _ _ _ (by norm_num) h30 h31,
          fun sigma rho beta s => rfl, ?_, ?_⟩
  · simp [lorenz_emits, List.getElem?_map, List.getElem?_range hn, lorenzIter]
  · intro i hi
    simp [lorenz_emits, List.getElem?_map, List.getElem?_range hi]

/-- C7 witness: one step with all draws at 0 and initial state `(1, 1, 1)`. -/
theorem C7_lorenz_forward_euler_witness :
    ((9:ℚ) ≤ uniform 9 11 0 ∧ uniform 9 11 0 < 11) ∧
    ((27:ℚ) ≤ uniform 27 29 0 ∧ uniform 27 29 0 < 29) ∧
    ((5/2:ℚ) ≤ uniform (5/2) 3 0 ∧ uniform (5/2) 3 0 < 3) ∧
    (∀ sigma rho beta : ℚ, ∀ s : ℚ × ℚ × ℚ,
      lorenzStep sigma rho beta s
        = (s.1 + sigma * (s.2.1 - s.1) * (1/100),
           s.2.1 + (s.1 * (rho - s.2.2) - s.2.1) * (1/100),
           s.2.2 + (s.1 * s.2.1 - beta * s.2.2) * (1/100))) ∧
    (lorenz_emits none 0 0 0 (1, 1, 1) (fun _ => 0) 1)[0]?
      = some ((uniform 9 11 0, uniform 27 29 0, uniform (5/2) 3 0),
              lorenzStep (uniform 9 11 0) (uniform 27 29 0) (uniform (5/2) 3 0)
                (lorenzIter (uniform 9 11 0) (uniform 27 29 0)
                  (uniform (5/2) 3 0) (1, 1, 1) 0),
              0) ∧
    (∀ i : Nat, i < 1 →
      ((lorenz_emits none 0 0 0 (1, 1, 1) (fun _ => 0) 1)[i]?.map (fun t => t.1))
        = some (uniform 9 11 0, uniform 27 29 0, uniform (5/2) 3 0)) :=
  C7_lorenz_forward_euler none 0 0 0 (1, 1, 1) (fun _ => 0) 1 0
    (by norm_num) (by norm_num) (by norm_num) (by norm_num) (by norm_num)
    (by norm_num) (by norm_num)

/-- C8: each random-walk step reads 8 bytes of OS randomness (value below
`2^64`), maps them to a shift in `[-50, 49]` via `% 100 - 50`, and moves the
position by exactly `shift * 0.001`. -/
theorem C8_random_walk_shift :
    ∀ (bs : List Nat) (pos : ℚ) (v : Nat) (vs : Nat → Nat) (n : Nat),
      bs.length = 8 → (∀ b ∈ bs, b < 256) →
      int_from_bytes_be bs < 2 ^ 64 ∧
      (-50 ≤ shiftOf v ∧ shiftOf v ≤ 49) ∧
      random_walk_step pos v = pos + (shiftOf v : ℚ) * (1/1000) ∧
      walkPos vs (n + 1) = random_walk_step (walkPos vs n) (vs n) := by
  intro bs pos v vs n hlen hbytes
  refine ⟨?_, ⟨?_, ?_⟩, rfl, rfl⟩
  · have h := foldl_bytes_lt bs 0 hbytes
    rw [hlen] at h
    calc int_from_bytes_be bs < (0 + 1) * 256 ^ 8 := h
      _ = 2 ^ 64 := by norm_num
  · have h100 : v % 100 < 100 := Nat.mod_lt _ (by norm_num)
    unfold shiftOf
    omega
  · have h100 : v % 100 < 100 := Nat.mod_lt _ (by norm_num)
    unfold shiftOf
    omega

/-- C8 witness: the byte string `00 … 00 ff`. -/
theorem C8_random_walk_shift_witness :
    int_from_bytes_be [0, 0, 0, 0, 0, 0, 0, 255] < 2 ^ 64 ∧
    (-50 ≤ shiftOf 255 ∧ shiftOf 255 ≤ 49) ∧
    random_walk_step 0 255 = 0 + (shiftOf 255 : ℚ) * (1/1000) ∧
    walkPos (fun _ => 255) (0 + 1)
      = random_walk_step (walkPos (fun _ => 255) 0) ((fun _ => 255) 0) :=
  C8_random_walk_shift [0, 0, 0, 0, 0, 0, 0, 255] 0 255 (fun _ => 255) 0
    (by decide) (by decide)

/-- C9: whenever at least one sample was collected, the digest is a string of
exactly 64 characters, each a lowercase hexadecimal digit. -/
theorem C9_digest_64_lowercase_hex :
    ∀ (startTime runTime : Nat) (tr : List PopEvent),
      processedItems (startTime + runTime) tr ≠ [] →
      (collectorDigest startTime runTime tr).length = 64 ∧
      ∀ c ∈ (collectorDigest startTime runTime tr).data,
        c ∈ ("0123456789abcdef").data := by
  intro startTime runTime tr _
  exact ⟨sha256Hex_length _, sha256Hex_chars _⟩

/-- C9 witness: the three-sample trace of the spec scenario. -/
theorem C9_digest_64_lowercase_hex_witness :
    processedItems (0 + 5) abcTrace ≠ [] ∧
    (collectorDigest 0 5 abcTrace).length = 64 ∧
    ∀ c ∈ (collectorDigest 0 5 abcTrace).data,
      c ∈ ("0123456789abcdef").data :=
  ⟨by decide, C9_digest_64_lowercase_hex 0 5 abcTrace (by decide)⟩

/-- C10: every generator ignores its `entropy_pool` argument — identical
randomness, timing and step count give identical enqueued sequences for any
two pool values — and the orchestrator passes `None` for it. -/
theorem C10_entropy_pool_ignored :
    ∀ (p1 p2 : Option Unit) (u x0 u1 u2 u3 : ℚ) (p0 : ℚ × ℚ × ℚ)
      (vs ts : Nat → Nat) (steps totalTime : Nat),
      logistic_map_emits p1 u x0 ts steps = logistic_map_emits p2 u x0 ts steps ∧
      lorenz_emits p1 u1 u2 u3 p0 ts steps = lorenz_emits p2 u1 u2 u3 p0 ts steps ∧
      random_walk_emits p1 vs ts steps = random_walk_emits p2 vs ts steps ∧
      ∀ w ∈ (run_chaotic_system_plan totalTime).workers, w.entropyPool = none := by
  intro p1 p2 u x0 u1 u2 u3 p0 vs ts steps totalTime
  refine ⟨rfl, rfl, rfl, ?_⟩
  intro w hw
  simp [run_chaotic_system_plan] at hw
  rcases hw with rfl | rfl | rfl | rfl <;> rfl
